import Mathlib

/-!
# Verification of the printer scanner (`src/main.rs`)

A shallow embedding of the printer-discovery tool.  Network I/O is modelled
by a `HostBehavior` environment that records, for each probe, what the
probe's single bounded read would yield (`none` = connect/write/read failure,
timeout, or an empty read).  The parsing heuristics are translated from the
Rust source function by function; Rust string primitives (`trim`,
`lines`, `contains`, `char::is_control`, byte `len`) are reproduced below.
-/

/-- Rust `char::is_whitespace` (the Unicode White_Space property). -/
def rustIsWhitespace (c : Char) : Bool :=
  (0x09 ≤ c.toNat && c.toNat ≤ 0x0D) || c.toNat = 0x20 || c.toNat = 0x85 ||
  c.toNat = 0xA0 || c.toNat = 0x1680 || (0x2000 ≤ c.toNat && c.toNat ≤ 0x200A) ||
  c.toNat = 0x2028 || c.toNat = 0x2029 || c.toNat = 0x202F || c.toNat = 0x205F ||
  c.toNat = 0x3000

/-- Rust `char::is_control` (Unicode category Cc: U+0000–U+001F and U+007F–U+009F). -/
def rustIsControl (c : Char) : Bool :=
  c.toNat < 0x20 || (0x7F ≤ c.toNat && c.toNat ≤ 0x9F)

/-- Rust `str::trim`: strip leading and trailing whitespace. -/
def rustTrim (s : String) : String :=
  ⟨((s.data.dropWhile rustIsWhitespace).reverse.dropWhile rustIsWhitespace).reverse⟩

/-- Fuel-indexed replacement of every leftmost, non-overlapping occurrence of
`pat` (helper for `rustReplace`; the fuel is only there to make the
recursion structural, `fuel = s.length` always suffices). -/
def replaceAux (pat repl : List Char) : Nat → List Char → List Char
  | 0, s => s
  | _ + 1, [] => []
  | fuel + 1, c :: cs =>
    if pat.isPrefixOf (c :: cs) then
      repl ++ replaceAux pat repl fuel ((c :: cs).drop pat.length)
    else c :: replaceAux pat repl fuel cs

/-- Rust `str::replace` for a nonempty string pattern: replace every
leftmost, non-overlapping occurrence of `pat` by `repl`.  (The source only
replaces the nonempty patterns `ID=`, `ID =` and `"`.) -/
def rustReplace (s pat repl : String) : String :=
  if pat.data.isEmpty then s
  else ⟨replaceAux pat.data repl.data s.data.length s.data⟩

/-- Split a character list at every occurrence of `sep` (helper for
`rustSplitChar`); `acc` holds the current piece reversed. -/
def splitCharAux (sep : Char) : List Char → List Char → List (List Char)
  | [], acc => [acc.reverse]
  | c :: cs, acc =>
    if c = sep then acc.reverse :: splitCharAux sep cs []
    else splitCharAux sep cs (c :: acc)

/-- Rust `str::split` on a single-character pattern: always yields at least
one (possibly empty) piece. -/
def rustSplitChar (s : String) (sep : Char) : List String :=
  (splitCharAux sep s.data []).map (fun l => ⟨l⟩)

/-- Rust `str::lines`: split at `\n`, drop a final empty piece produced by a
trailing newline, and strip a trailing `\r` from each line. -/
def rustLines (s : String) : List String :=
  if s.data.isEmpty then []
  else
    let parts := rustSplitChar s '\n'
    let parts := if s.data.getLast? = some '\n' then parts.dropLast else parts
    parts.map (fun l => if l.data.getLast? = some '\r' then ⟨l.data.dropLast⟩ else l)

/-- Substring search on character lists (helper for `rustContains`). -/
def charsContain (pat : List Char) : List Char → Bool
  | [] => pat.isEmpty
  | c :: cs => pat.isPrefixOf (c :: cs) || charsContain pat cs

/-- Rust `str::contains` for a string pattern. -/
def rustContains (s pat : String) : Bool :=
  charsContain pat.data s.data

/-- Rust `Iterator::max_by_key` with a `Nat`-valued key: `none` on an empty
list; on ties the LAST maximal element is returned. -/
def rustMaxByKey (key : α → Nat) : List α → Option α
  | [] => none
  | x :: xs => some (xs.foldl (fun acc y => if key acc ≤ key y then y else acc) x)

/-! ## Protocol probe heuristics (from `src/main.rs`) -/

/-- The response heuristic of `get_pjl_info` (`src/main.rs:51-59`): the decoded
read (`raw`, nonempty since `n > 0`) must contain `"ID"`; strip `ID=`,
`ID =` and quote characters, trim, and return the first non-blank line,
defaulting to `"Unknown PJL"`. -/
def pjlHeuristic (raw : String) : Option String :=
  if rustContains raw "ID" then
    let clean :=
      rustTrim (rustReplace (rustReplace (rustReplace raw "ID=" "") "ID =" "") "\"" "")
    some (((rustLines clean).find? (fun l => !(rustTrim l).data.isEmpty)).getD "Unknown PJL")
  else none

/-- The response heuristic of `get_zebra_sgd_info` (`src/main.rs:76-85`): trim;
require nonempty, byte length > 2, and all characters ASCII non-control;
strip quotes and make the result `"Zebra <clean>"`. -/
def sgdHeuristic (resp : String) : Option String :=
  let raw := rustTrim resp
  if !raw.data.isEmpty && raw.utf8ByteSize > 2 &&
      raw.data.all (fun c => c.toNat ≤ 0x7F && !rustIsControl c) then
    some ("Zebra " ++ rustReplace raw "\"" "")
  else none

/-- The response heuristic of `get_zpl_hi_info` (`src/main.rs:99-112`): the
response must contain a comma; split on commas, take `max_by_key` on byte
length (last maximal field on ties), accept if that field's (untrimmed)
byte length exceeds 3, and wrap the trimmed field as `"Zebra ZPL (<field>)"`. -/
def zplHeuristic (raw : String) : Option String :=
  if rustContains raw "," then
    match rustMaxByKey String.utf8ByteSize (rustSplitChar raw ',') with
    | some longest =>
        if longest.utf8ByteSize > 3 then
          some ("Zebra ZPL (" ++ rustTrim longest ++ ")")
        else none
    | none => none
  else none

/-- SNMP object identifiers, as in the `snmp2` crate, are sequences of
sub-identifiers. -/
abbrev SnmpOid := List Nat

/-- SNMP varbind values (the `snmp2::Value` cases relevant here); an octet
string carries its lossily-decoded text. -/
inductive SnmpValue where
  | octetString (s : String)
  | integer (n : Int)
  | null
deriving DecidableEq

/-- The constant `OID_SYS_DESCR` (`src/main.rs:13`): the system-description OID requested
by the SNMP probe. -/
def OID_SYS_DESCR : SnmpOid := [1, 3, 6, 1, 2, 1, 1, 1, 0]

/-- The handling by `get_snmp_info` of a GET response (`src/main.rs:123-127`):
take the FIRST varbind, ignore its OID, and if its value is an octet string
return the trimmed text; anything else (other value kind, or no varbinds)
yields `none`. -/
def snmpFirstVarbind (varbinds : List (SnmpOid × SnmpValue)) : Option String :=
  match varbinds with
  | (_, SnmpValue.octetString s) :: _ => some (rustTrim s)
  | _ => none

/-- The response heuristic of `get_raw_banner` (`src/main.rs:140-147`): replace
`\r` and `\n` by spaces, trim; accept if byte length > 3 and some character
is alphabetic.  (Rust's `is_alphabetic` is Unicode; the ASCII fragment is
used here, and no claim depends on non-ASCII letters.) -/
def bannerHeuristic (resp : String) : Option String :=
  let raw := rustTrim ⟨resp.data.map (fun c => if c = '\r' || c = '\n' then ' ' else c)⟩
  if raw.utf8ByteSize > 3 && raw.data.any (fun c => c.isAlpha) then some raw else none

/-! ## Host environment and orchestration (from `src/main.rs`) -/

/-- The constant `PRINTER_PORT` (`src/main.rs:12`). -/
def PRINTER_PORT : Nat := 9100

/-- The CLI configuration `Args` (`src/main.rs:15-25`); any values are
accepted by the parser, the defaults are recorded in `defaultArgs`. -/
structure Args where
  network : String
  timeout_ms : Nat
  concurrency : Nat

/-- The default configuration (`src/main.rs:17-24`). -/
def defaultArgs : Args := ⟨"192.168.199.0/24", 2000, 50⟩

/-- The PJL probe's inner read timeout in ms (`src/main.rs:51`). -/
def pjlReadTimeoutMs : Nat := 1000

/-- The Zebra-SGD probe's inner read timeout in ms (`src/main.rs:76`). -/
def sgdReadTimeoutMs : Nat := 1500

/-- The Zebra-ZPL probe's inner read timeout in ms (`src/main.rs:99`). -/
def zplReadTimeoutMs : Nat := 1000

/-- The raw-banner probe's inner read timeout in ms (`src/main.rs:140`). -/
def bannerReadTimeoutMs : Nat := 500

/-- The network environment of one host, as observed by the scanner: whether
the bounded-time connect of `is_port_open` succeeds, and for each protocol
probe what its own connect/write/read sequence yields (`none` = connect
failure or timeout, write failure, read failure or timeout, or an empty
read; `some r` = a read of `n > 0` bytes that decodes to `r`).  The SNMP
field carries the varbinds of a GET response, `none` meaning session
failure or no response. -/
structure HostBehavior where
  portOpen : Bool
  sgdResp : Option String
  pjlResp : Option String
  zplResp : Option String
  snmpResp : Option (List (SnmpOid × SnmpValue))
  bannerResp : Option String

/-- Embedding of `is_port_open` (`src/main.rs:34-40`): the bounded-time connect attempt;
`false` on connect error or timeout. -/
def is_port_open (b : HostBehavior) : Bool :=
  b.portOpen

/-- Embedding of `get_pjl_info` (`src/main.rs:43-62`). -/
def get_pjl_info (b : HostBehavior) : Option String :=
  b.pjlResp.bind pjlHeuristic

/-- Embedding of `get_zebra_sgd_info` (`src/main.rs:66-88`). -/
def get_zebra_sgd_info (b : HostBehavior) : Option String :=
  b.sgdResp.bind sgdHeuristic

/-- Embedding of `get_zpl_hi_info` (`src/main.rs:91-114`). -/
def get_zpl_hi_info (b : HostBehavior) : Option String :=
  b.zplResp.bind zplHeuristic

/-- Embedding of `get_snmp_info` (`src/main.rs:117-130`). -/
def get_snmp_info (b : HostBehavior) : Option String :=
  b.snmpResp.bind snmpFirstVarbind

/-- Embedding of `get_raw_banner` (`src/main.rs:134-149`). -/
def get_raw_banner (b : HostBehavior) : Option String :=
  b.bannerResp.bind bannerHeuristic

/-- The record `PrinterInfo` (`src/main.rs:27-32`); the IPv4 address is its 32-bit
numeric value, which orders exactly like Rust's `IpAddr` does within V4. -/
structure PrinterInfo where
  ip : Nat
  model : String
  source : String
deriving DecidableEq

/-- Embedding of `scan_target` (`src/main.rs:151-185`): gate on the reachability probe,
then try SGD, PJL, ZPL, SNMP and the raw banner in that order, stopping at
the first success. -/
def scan_target (ip : Nat) (b : HostBehavior) : Option PrinterInfo :=
  if !is_port_open b then none
  else
    match get_zebra_sgd_info b with
    | some model => some ⟨ip, model, "SGD (Zebra)"⟩
    | none =>
      match get_pjl_info b with
      | some model => some ⟨ip, model, "PJL"⟩
      | none =>
        match get_zpl_hi_info b with
        | some model => some ⟨ip, model, "ZPL"⟩
        | none =>
          match get_snmp_info b with
          | some model => some ⟨ip, model, "SNMP"⟩
          | none =>
            match get_raw_banner b with
            | some raw => some ⟨ip, "Raw: " ++ raw, "Raw Banner"⟩
            | none => none

/-- The five protocol probes, in the order `scan_target` tries them. -/
inductive ProbeName where
  | sgd | pjl | zpl | snmp | banner
deriving DecidableEq

/-- Call-count instrumentation of `scan_target`: the list of protocol probes
it invokes against a host with behavior `b`, in order.  (Each branch of
`scan_target` consults exactly these probes before returning.) -/
def probesAttempted (b : HostBehavior) : List ProbeName :=
  if !is_port_open b then []
  else if (get_zebra_sgd_info b).isSome then [.sgd]
  else if (get_pjl_info b).isSome then [.sgd, .pjl]
  else if (get_zpl_hi_info b).isSome then [.sgd, .pjl, .zpl]
  else if (get_snmp_info b).isSome then [.sgd, .pjl, .zpl, .snmp]
  else [.sgd, .pjl, .zpl, .snmp, .banner]

/-! ## Aggregation, enumeration, and the run (from `src/main.rs` `main`) -/

/-- Comparison by address, the key of `results.sort_by_key(|k| k.ip)`
(`src/main.rs:209`). -/
def ipLe (a b : PrinterInfo) : Prop :=
  a.ip ≤ b.ip

/-- Strict comparison by address. -/
def ipLt (a b : PrinterInfo) : Prop :=
  a.ip < b.ip

instance : DecidableRel ipLe := fun a b => inferInstanceAs (Decidable (a.ip ≤ b.ip))

instance : DecidableRel ipLt := fun a b => inferInstanceAs (Decidable (a.ip < b.ip))

instance : IsTotal PrinterInfo ipLe := ⟨fun a b => Nat.le_total a.ip b.ip⟩

instance : IsTrans PrinterInfo ipLe := ⟨fun _ _ _ => Nat.le_trans⟩

instance : IsAntisymm PrinterInfo ipLt :=
  ⟨fun _ _ h h' => absurd h' (Nat.lt_asymm h)⟩

/-- The result aggregation of `main` (`src/main.rs:204-209`): discard the
`None` outcomes (`filter_map`) and sort the records ascending by address
(`sort_by_key`, modelled by a stable insertion sort on the same key). -/
def aggregate (outcomes : List (Option PrinterInfo)) : List PrinterInfo :=
  List.insertionSort ipLe (outcomes.filterMap id)

/-- Modelled from the spec: the `ipnet` crate's `Ipv4Net::hosts()` iterator
(the AddressEnumerator, invoked at `src/main.rs:197`) is not part of this
repository; per the spec's host-range semantics it yields, for a `/p`
network with `p ≤ 30` whose network address has numeric value `base`, the
addresses strictly between the network address and the broadcast address
`base + 2^(32-p) - 1`, in ascending order. -/
def netHosts (base p : Nat) : List Nat :=
  (List.range (2 ^ (32 - p) - 2)).map (fun i => base + 1 + i)

/-- The numeric value of a dotted-quad IPv4 address. -/
def ipv4 (a b c d : Nat) : Nat :=
  ((a * 256 + b) * 256 + c) * 256 + d

/-- Outcome of one run of `main`: either the fatal descriptor-parse error
path (`src/main.rs:190-193`) or normal completion with the aggregated
records. -/
inductive RunOutcome where
  | fatalError (msg : String)
  | completed (records : List PrinterInfo)
deriving DecidableEq

/-- Embedding of `main` (`src/main.rs:188-209`), up to the excluded console rendering:
`parsed` is the outcome of the external `ipnet` descriptor parse (`.error e`
for a malformed descriptor), and `bs` assigns each host address its network
behavior.  On a parse error the run stops at once with the diagnostic
(`src/main.rs:192`); otherwise every enumerated host is scanned and the
outcomes are aggregated.  (`main` collects completions in arbitrary order
before sorting; `aggregate_deterministic` shows the order cannot matter.) -/
def runMain (parsed : Except String (Nat × Nat)) (bs : Nat → HostBehavior) : RunOutcome :=
  match parsed with
  | .error e => .fatalError ("网段错误: " ++ e)
  | .ok (base, p) =>
    .completed (aggregate ((netHosts base p).map (fun ip => scan_target ip (bs ip))))

/-! ## The concurrency scheduler (modelled from the spec) -/

/-- A state of the scheduler: hosts not yet started, hosts whose
orchestration is in flight, and finished outcomes (newest first). -/
structure SchedState where
  pending : List Nat
  active : List Nat
  done : List (Option PrinterInfo)
deriving DecidableEq

/-- Modelled from the spec: `futures::stream::buffer_unordered` (the
ConcurrencyScheduler, `src/main.rs:197-202`) is library code, not part of
this repository.  Per the spec it may start the next pending host only
while fewer than `K` orchestrations are in flight, and may finish any
in-flight host, recording `scan_target` for it; completions happen in any
order. -/
inductive SchedStep (K : Nat) (bs : Nat → HostBehavior) : SchedState → SchedState → Prop where
  | start (t : Nat) (rest a d) (h : a.length < K) :
      SchedStep K bs ⟨t :: rest, a, d⟩ ⟨rest, t :: a, d⟩
  | finish (t : Nat) (p a₁ a₂ d) :
      SchedStep K bs ⟨p, a₁ ++ t :: a₂, d⟩ ⟨p, a₁ ++ a₂, scan_target t (bs t) :: d⟩

/-- States reachable by the scheduler from the initial state on a given
target list (no orchestration active, nothing done). -/
inductive SchedReach (K : Nat) (bs : Nat → HostBehavior) (targets : List Nat) : SchedState → Prop where
  | init : SchedReach K bs targets ⟨targets, [], []⟩
  | step {s s'} : SchedReach K bs targets s → SchedStep K bs s s' → SchedReach K bs targets s'

/-! ## Example host behaviors (used by the witnesses) -/

/-- A host whose printer port is closed. -/
def silentHost : HostBehavior :=
  ⟨false, none, none, none, none, none⟩

/-- A host whose printer port is open, whose SGD read yields `"GX430t"`, and
whose PJL read yields a response that also satisfies the PJL heuristic. -/
def zebraHost : HostBehavior :=
  ⟨true, some "GX430t", some "@PJL INFO ID\r\nID=\"LaserJet\"", none, none, none⟩

/-! ## Claims -/

/-- C1: for a host whose printer port is open, `scan_target` attempts the
probes in the fixed order SGD, PJL, ZPL, SNMP, raw banner; it stops at the
first probe returning a model, tags the record with that probe's source tag,
and attempts no later probe; in particular a host matching both the SGD and
the PJL heuristics is tagged `"SGD (Zebra)"`, never `"PJL"`. -/
theorem scan_target_priority_order (ip : Nat) (b : HostBehavior)
    (h : is_port_open b = true) :
    (∀ m, get_zebra_sgd_info b = some m →
      scan_target ip b = some ⟨ip, m, "SGD (Zebra)"⟩ ∧
      probesAttempted b = [ProbeName.sgd]) ∧
    (get_zebra_sgd_info b = none → ∀ m, get_pjl_info b = some m →
      scan_target ip b = some ⟨ip, m, "PJL"⟩ ∧
      probesAttempted b = [ProbeName.sgd, ProbeName.pjl]) ∧
    (get_zebra_sgd_info b = none → get_pjl_info b = none →
      ∀ m, get_zpl_hi_info b = some m →
      scan_target ip b = some ⟨ip, m, "ZPL"⟩ ∧
      probesAttempted b = [ProbeName.sgd, ProbeName.pjl, ProbeName.zpl]) ∧
    (get_zebra_sgd_info b = none → get_pjl_info b = none → get_zpl_hi_info b = none →
      ∀ m, get_snmp_info b = some m →
      scan_target ip b = some ⟨ip, m, "SNMP"⟩ ∧
      probesAttempted b = [ProbeName.sgd, ProbeName.pjl, ProbeName.zpl, ProbeName.snmp]) ∧
    (get_zebra_sgd_info b = none → get_pjl_info b = none → get_zpl_hi_info b = none →
      get_snmp_info b = none → ∀ m, get_raw_banner b = some m →
      scan_target ip b = some ⟨ip, "Raw: " ++ m, "Raw Banner"⟩ ∧
      probesAttempted b =
        [ProbeName.sgd, ProbeName.pjl, ProbeName.zpl, ProbeName.snmp, ProbeName.banner]) ∧
    (∀ m m', get_zebra_sgd_info b = some m → get_pjl_info b = some m' →
      scan_target ip b = some ⟨ip, m, "SGD (Zebra)"⟩ ∧
      ProbeName.pjl ∉ probesAttempted b) := by
  refine ⟨?_, ?_, ?_, ?_, ?_, ?_⟩
  · intro m hm
    simp [scan_target, probesAttempted, h, hm]
  · intro h1 m hm
    simp [scan_target, probesAttempted, h, h1, hm]
  · intro h1 h2 m hm
    simp [scan_target, probesAttempted, h, h1, h2, hm]
  · intro h1 h2 h3 m hm
    simp [scan_target, probesAttempted, h, h1, h2, h3, hm]
  · intro h1 h2 h3 h4 m hm
    simp [scan_target, probesAttempted, h, h1, h2, h3, h4, hm]
  · intro m m' hm hm'
    simp [scan_target, probesAttempted, h, hm]

/-- Witness for C1: `zebraHost` satisfies both the SGD and the PJL
heuristics, yet is tagged `"SGD (Zebra)"` and PJL is never attempted. -/
theorem scan_target_priority_order_witness :
    is_port_open zebraHost = true ∧
    (get_pjl_info zebraHost).isSome = true ∧
    scan_target 1 zebraHost = some ⟨1, "Zebra GX430t", "SGD (Zebra)"⟩ ∧
    ProbeName.pjl ∉ probesAttempted zebraHost := by
  have h := (scan_target_priority_order 1 zebraHost (by decide)).2.2.2.2.2
    "Zebra GX430t" "@PJL INFO ID" (by decide) (by decide)
  exact ⟨by decide, by decide, h.1, h.2⟩

/-- C2: if the reachability probe reports the printer port closed,
`scan_target` returns no record and invokes none of the five protocol
probes. -/
theorem scan_target_closed_port (ip : Nat) (b : HostBehavior)
    (h : is_port_open b = false) :
    scan_target ip b = none ∧ probesAttempted b = [] := by
  simp [scan_target, probesAttempted, h]

/-- Witness for C2 at a concrete closed-port host. -/
theorem scan_target_closed_port_witness :
    is_port_open silentHost = false ∧
    scan_target 5 silentHost = none ∧ probesAttempted silentHost = [] :=
  ⟨rfl, (scan_target_closed_port 5 silentHost rfl).1,
    (scan_target_closed_port 5 silentHost rfl).2⟩

/-- C9: if a PJL response contains the marker `"ID"` but every line of the
cleaned response is blank, the probe still succeeds with the fixed
placeholder `"Unknown PJL"` instead of returning `none`. -/
theorem pjl_blank_placeholder (raw : String)
    (hid : rustContains raw "ID" = true)
    (hblank : ∀ l ∈ rustLines (rustTrim (rustReplace (rustReplace
        (rustReplace raw "ID=" "") "ID =" "") "\"" "")),
      (rustTrim l).data.isEmpty = true) :
    pjlHeuristic raw = some "Unknown PJL" := by
  have hfind : (rustLines (rustTrim (rustReplace (rustReplace
      (rustReplace raw "ID=" "") "ID =" "") "\"" ""))).find?
      (fun l => !(rustTrim l).data.isEmpty) = none := by
    rw [List.find?_eq_none]
    intro l hl
    simp [hblank l hl]
  simp [pjlHeuristic, hid, hfind]

/-- Witness for C9: the response `"ID="` cleans to the empty string, so the
probe returns the placeholder. -/
theorem pjl_blank_placeholder_witness :
    rustContains "ID=" "ID" = true ∧ pjlHeuristic "ID=" = some "Unknown PJL" :=
  ⟨by decide, pjl_blank_placeholder "ID=" (by decide) (by decide)⟩

/-- Helper: membership in `netHosts`. -/
theorem netHosts_mem (base p a : Nat) :
    a ∈ netHosts base p ↔ ∃ i, i < 2 ^ (32 - p) - 2 ∧ a = base + 1 + i := by
  simp [netHosts, eq_comm]

/-- Helper: `netHosts` is strictly ascending. -/
theorem netHosts_pairwise (base p : Nat) :
    (netHosts base p).Pairwise (· < ·) :=
  (List.pairwise_lt_range _).map _ (fun _ _ h => by omega)

/-- C5: for the network descriptor `192.168.1.0/24` the enumeration yields
exactly 254 host addresses, in strictly ascending order with no duplicates,
all strictly between the network address `.0` and the broadcast address
`.255`, and excluding both. -/
theorem slash24_enumeration :
    (netHosts (ipv4 192 168 1 0) 24).length = 254 ∧
    (netHosts (ipv4 192 168 1 0) 24).Pairwise (· < ·) ∧
    (netHosts (ipv4 192 168 1 0) 24).Nodup ∧
    ipv4 192 168 1 0 ∉ netHosts (ipv4 192 168 1 0) 24 ∧
    ipv4 192 168 1 255 ∉ netHosts (ipv4 192 168 1 0) 24 ∧
    ∀ a ∈ netHosts (ipv4 192 168 1 0) 24,
      ipv4 192 168 1 0 < a ∧ a < ipv4 192 168 1 255 := by
  have h254 : (2 : Nat) ^ (32 - 24) - 2 = 254 := by norm_num
  have hb : ipv4 192 168 1 255 = ipv4 192 168 1 0 + 255 := by norm_num [ipv4]
  have hpw := netHosts_pairwise (ipv4 192 168 1 0) 24
  have hbound : ∀ a ∈ netHosts (ipv4 192 168 1 0) 24,
      ipv4 192 168 1 0 < a ∧ a < ipv4 192 168 1 255 := by
    intro a ha
    rw [netHosts_mem] at ha
    obtain ⟨i, hi, rfl⟩ := ha
    rw [h254] at hi
    rw [hb]
    omega
  refine ⟨?_, hpw, hpw.nodup, ?_, ?_, hbound⟩
  · simp [netHosts, h254]
  · intro hmem
    exact absurd (hbound _ hmem).1 (lt_irrefl _)
  · intro hmem
    exact absurd (hbound _ hmem).2 (lt_irrefl _)

/-- Counterexample for C4: the per-connection timeout is freely
configurable; with `--timeout-ms 100` the SGD probe's fixed inner timeout
of 1500 ms exceeds the configured per-host budget. -/
theorem probe_timeout_budget_cex :
    sgdReadTimeoutMs = 1500 ∧
    (Args.mk "192.168.1.0/24" 100 50).timeout_ms = 100 ∧
    ¬ sgdReadTimeoutMs ≤ (Args.mk "192.168.1.0/24" 100 50).timeout_ms := by
  decide

/-- C4 (amended): every probe's inner response timeout (1000 ms PJL,
1500 ms SGD, 1000 ms ZPL, 500 ms raw banner) is at most the DEFAULT
per-connection timeout of 2000 ms; for an arbitrary configuration the bound
holds whenever the configured timeout is at least the largest inner timeout
(1500 ms), but not for smaller configured values. -/
theorem probe_timeouts_le_default_budget :
    (pjlReadTimeoutMs ≤ defaultArgs.timeout_ms ∧
     sgdReadTimeoutMs ≤ defaultArgs.timeout_ms ∧
     zplReadTimeoutMs ≤ defaultArgs.timeout_ms ∧
     bannerReadTimeoutMs ≤ defaultArgs.timeout_ms) ∧
    (∀ a : Args, sgdReadTimeoutMs ≤ a.timeout_ms →
      pjlReadTimeoutMs ≤ a.timeout_ms ∧ zplReadTimeoutMs ≤ a.timeout_ms ∧
      bannerReadTimeoutMs ≤ a.timeout_ms) := by
  constructor
  · decide
  · intro a h
    exact ⟨Nat.le_trans (by decide) h, Nat.le_trans (by decide) h,
      Nat.le_trans (by decide) h⟩

/-- Witness for C4 (amended), at the default configuration. -/
theorem probe_timeouts_le_default_budget_witness :
    sgdReadTimeoutMs ≤ defaultArgs.timeout_ms ∧
    pjlReadTimeoutMs ≤ defaultArgs.timeout_ms ∧
    zplReadTimeoutMs ≤ defaultArgs.timeout_ms ∧
    bannerReadTimeoutMs ≤ defaultArgs.timeout_ms :=
  ⟨by decide, probe_timeouts_le_default_budget.2 defaultArgs (by decide)⟩

/-- Counterexample for C10: a well-formed response whose first varbind
carries a DIFFERENT OID with an octet-string value is accepted as a match,
not treated as no match. -/
theorem snmp_wrong_oid_cex :
    ([1, 2, 3] : SnmpOid) ≠ OID_SYS_DESCR ∧
    snmpFirstVarbind [([1, 2, 3], SnmpValue.octetString "hello")] = some "hello" ∧
    get_snmp_info ⟨true, none, none, none,
      some [([1, 2, 3], SnmpValue.octetString "hello")], none⟩ = some "hello" := by
  decide

/-- C10 (amended): the SNMP probe takes the first varbind of the GET
response without checking its OID against the requested system-description
OID; it returns `none` whenever that first varbind's value is not an octet
string (or there is no varbind), and it accepts an octet-string value as
the model — trimmed — even under a different OID. -/
theorem snmp_first_varbind_spec (varbinds : List (SnmpOid × SnmpValue)) :
    (∀ oid s rest, varbinds = (oid, SnmpValue.octetString s) :: rest →
      snmpFirstVarbind varbinds = some (rustTrim s)) ∧
    (∀ oid v rest, varbinds = (oid, v) :: rest →
      (∀ s, v ≠ SnmpValue.octetString s) → snmpFirstVarbind varbinds = none) ∧
    (varbinds = [] → snmpFirstVarbind varbinds = none) := by
  refine ⟨?_, ?_, ?_⟩
  · intro oid s rest h
    subst h
    rfl
  · intro oid v rest h hv
    subst h
    cases v with
    | octetString s => exact absurd rfl (hv s)
    | integer n => rfl
    | null => rfl
  · intro h
    subst h
    rfl

/-- Witness for C10 (amended): a wrong-OID octet string is accepted and
trimmed; a right-OID integer value is rejected. -/
theorem snmp_first_varbind_spec_witness :
    snmpFirstVarbind [([1, 2, 3], SnmpValue.octetString " hi ")] = some "hi" ∧
    snmpFirstVarbind [(OID_SYS_DESCR, SnmpValue.integer 7)] = none := by
  have h1 := (snmp_first_varbind_spec [([1, 2, 3], SnmpValue.octetString " hi ")]).1
    [1, 2, 3] " hi " [] rfl
  have h2 := (snmp_first_varbind_spec [(OID_SYS_DESCR, SnmpValue.integer 7)]).2.1
    OID_SYS_DESCR (SnmpValue.integer 7) [] rfl (by intro s hs; cases hs)
  refine ⟨?_, h2⟩
  rw [h1]
  decide

/-- Helper: `rustMaxByKey` on a nonempty list returns an element that every
earlier element keys at most equal to and every later element keys strictly
below — i.e. the LAST maximal element. -/
theorem rustMaxByKey_lastMax {α : Type} (key : α → Nat) (x : α) (xs : List α) :
    ∃ m l₁ l₂, rustMaxByKey key (x :: xs) = some m ∧ x :: xs = l₁ ++ m :: l₂ ∧
      (∀ a ∈ l₁, key a ≤ key m) ∧ (∀ a ∈ l₂, key a < key m) := by
  induction xs generalizing x with
  | nil =>
    exact ⟨x, [], [], rfl, rfl, by simp, by simp⟩
  | cons y ys ih =>
    by_cases hxy : key x ≤ key y
    · obtain ⟨m, l₁, l₂, hm, hsplit, h₁, h₂⟩ := ih y
      have hy : key y ≤ key m := by
        cases l₁ with
        | nil =>
          obtain ⟨rfl, -⟩ : y = m ∧ ys = l₂ := by
            simpa using hsplit
          exact le_refl _
        | cons z zs =>
          obtain ⟨rfl, -⟩ : y = z ∧ ys = zs ++ m :: l₂ := by
            simpa using hsplit
          exact h₁ y (List.mem_cons_self y zs)
      refine ⟨m, x :: l₁, l₂, ?_, ?_, ?_, h₂⟩
      · simp only [rustMaxByKey, List.foldl_cons] at hm ⊢
        rw [if_pos hxy]
        exact hm
      · rw [List.cons_append, ← hsplit]
      · intro a ha
        rcases List.mem_cons.mp ha with rfl | ha
        · exact le_trans hxy hy
        · exact h₁ a ha
    · obtain ⟨m, l₁, l₂, hm, hsplit, h₁, h₂⟩ := ih x
      have hstep : rustMaxByKey key (x :: y :: ys) = some m := by
        simp only [rustMaxByKey, List.foldl_cons] at hm ⊢
        rw [if_neg hxy]
        exact hm
      cases l₁ with
      | nil =>
        obtain ⟨rfl, rfl⟩ : x = m ∧ ys = l₂ := by
          simpa using hsplit
        refine ⟨x, [], y :: ys, hstep, rfl, by simp, ?_⟩
        intro a ha
        rcases List.mem_cons.mp ha with rfl | ha
        · omega
        · exact h₂ a ha
      | cons z zs =>
        obtain ⟨rfl, hys⟩ : x = z ∧ ys = zs ++ m :: l₂ := by
          simpa using hsplit
        have hxm : key x ≤ key m := h₁ x (List.mem_cons_self x zs)
        refine ⟨m, x :: y :: zs, l₂, hstep, ?_, ?_, h₂⟩
        · simp [hys]
        · intro a ha
          rcases List.mem_cons.mp ha with rfl | ha
          · exact hxm
          rcases List.mem_cons.mp ha with rfl | ha
          · omega
          · exact h₁ a (List.mem_cons_of_mem x ha)

/-- Counterexample for C3: on the tied-length response `"aaaa,bbbb"` the
code picks the LAST longest field, not the first-seen one; and on
`"x,abc "` it accepts a field whose TRIMMED length is only 3, because the
`> 3` check uses the untrimmed field. -/
theorem zpl_claim_cex :
    (zplHeuristic "aaaa,bbbb" = some "Zebra ZPL (bbbb)" ∧
      zplHeuristic "aaaa,bbbb" ≠ some "Zebra ZPL (aaaa)") ∧
    (zplHeuristic "x,abc " = some "Zebra ZPL (abc)" ∧
      (rustTrim "abc ").utf8ByteSize = 3) := by
  decide

/-- C3 (amended): for every ZPL response containing a comma, the extraction
splits the response on commas and picks the longest field — ties between
equally long fields resolved in favor of the LAST-seen one — accepts it
only if its UNTRIMMED byte length is greater than 3, and returns
`"Zebra ZPL (<field, trimmed>)"`; in particular `"a,bb,ccccc,d"` yields
`"Zebra ZPL (ccccc)"`. -/
theorem zpl_longest_field_spec :
    (∀ raw p ps, rustContains raw "," = true → rustSplitChar raw ',' = p :: ps →
      ∃ m l₁ l₂, p :: ps = l₁ ++ m :: l₂ ∧
        (∀ a ∈ l₁, a.utf8ByteSize ≤ m.utf8ByteSize) ∧
        (∀ a ∈ l₂, a.utf8ByteSize < m.utf8ByteSize) ∧
        zplHeuristic raw =
          (if m.utf8ByteSize > 3 then some ("Zebra ZPL (" ++ rustTrim m ++ ")")
           else none)) ∧
    zplHeuristic "a,bb,ccccc,d" = some "Zebra ZPL (ccccc)" := by
  constructor
  · intro raw p ps hc hsplit
    obtain ⟨m, l₁, l₂, hm, hsp, h₁, h₂⟩ :=
      rustMaxByKey_lastMax String.utf8ByteSize p ps
    refine ⟨m, l₁, l₂, hsp, h₁, h₂, ?_⟩
    simp [zplHeuristic, hc, hsplit, hm]
  · decide

/-- Witness for C3 (amended), instantiated at the response
`"a,bb,ccccc,d"`. -/
theorem zpl_longest_field_spec_witness :
    rustContains "a,bb,ccccc,d" "," = true ∧
    rustSplitChar "a,bb,ccccc,d" ',' = ["a", "bb", "ccccc", "d"] ∧
    ∃ m l₁ l₂, ["a", "bb", "ccccc", "d"] = l₁ ++ m :: l₂ ∧
      (∀ a ∈ l₁, a.utf8ByteSize ≤ m.utf8ByteSize) ∧
      (∀ a ∈ l₂, a.utf8ByteSize < m.utf8ByteSize) ∧
      zplHeuristic "a,bb,ccccc,d" =
        (if m.utf8ByteSize > 3 then some ("Zebra ZPL (" ++ rustTrim m ++ ")")
         else none) :=
  ⟨by decide, by decide,
    zpl_longest_field_spec.1 "a,bb,ccccc,d" "a" ["bb", "ccccc", "d"]
      (by decide) (by decide)⟩

/-- Two sample records with distinct addresses. -/
def recA : PrinterInfo := ⟨2, "Zebra GX430t", "SGD (Zebra)"⟩

/-- A second sample record, with the smaller address. -/
def recB : PrinterInfo := ⟨1, "HP LaserJet", "PJL"⟩

/-- C6: for any multiset of per-host outcomes — whose successful records
carry pairwise distinct addresses, one host producing at most one record —
the aggregation discards the `none` outcomes and arranges the remaining
records strictly ascending by address; it is invariant under the completion
order (any permutation of the outcomes aggregates identically). -/
theorem aggregate_deterministic (xs ys : List (Option PrinterInfo))
    (hperm : xs.Perm ys)
    (hips : ((xs.filterMap id).map PrinterInfo.ip).Nodup) :
    (aggregate xs).Pairwise ipLt ∧
    (aggregate xs).Perm (xs.filterMap id) ∧
    aggregate xs = aggregate ys := by
  have hsortLe : ∀ zs : List (Option PrinterInfo), (aggregate zs).Pairwise ipLe :=
    fun zs => List.sorted_insertionSort ipLe _
  have hpermAgg : ∀ zs : List (Option PrinterInfo), (aggregate zs).Perm (zs.filterMap id) :=
    fun zs => List.perm_insertionSort ipLe _
  have hfm : (xs.filterMap id).Perm (ys.filterMap id) := hperm.filterMap id
  have hipsy : ((ys.filterMap id).map PrinterInfo.ip).Nodup :=
    ((hfm.map PrinterInfo.ip).nodup_iff).mp hips
  have strict : ∀ zs : List (Option PrinterInfo),
      ((zs.filterMap id).map PrinterInfo.ip).Nodup → (aggregate zs).Pairwise ipLt := by
    intro zs hnd
    have h2 : ((aggregate zs).map PrinterInfo.ip).Nodup :=
      ((hpermAgg zs).map PrinterInfo.ip).nodup_iff.mpr hnd
    have h3 : (aggregate zs).Pairwise (fun a b => a.ip ≠ b.ip) := by
      rw [List.Nodup, List.pairwise_map] at h2
      exact h2
    exact ((hsortLe zs).and h3).imp (fun h => Nat.lt_of_le_of_ne h.1 h.2)
  have hx := strict xs hips
  have hy := strict ys hipsy
  have hp : (aggregate xs).Perm (aggregate ys) :=
    (hpermAgg xs).trans (hfm.trans (hpermAgg ys).symm)
  exact ⟨hx, hpermAgg xs, List.eq_of_perm_of_sorted hp hx hy⟩

/-- Witness for C6: two completion orders of the same outcomes aggregate to
the same strictly ascending record list. -/
theorem aggregate_deterministic_witness :
    ([some recA, none, some recB] : List (Option PrinterInfo)).Perm
      [some recB, some recA, none] ∧
    (([some recA, none, some recB].filterMap
        (id : Option PrinterInfo → Option PrinterInfo)).map PrinterInfo.ip).Nodup ∧
    aggregate [some recA, none, some recB] = aggregate [some recB, some recA, none] ∧
    aggregate [some recA, none, some recB] = [recB, recA] := by
  have hperm : ([some recA, none, some recB] : List (Option PrinterInfo)).Perm
      [some recB, some recA, none] := by decide
  have h := aggregate_deterministic _ _ hperm (by decide)
  exact ⟨hperm, by decide, h.2.2, by decide⟩

/-- C7: a malformed network descriptor terminates the run at once with a
descriptive message, independently of every host behavior (no probing); for
any parsed network and ANY host behaviors — every connectivity failure,
timeout or heuristic mismatch being a `none` somewhere inside `bs` — the
run completes normally, and with a possibly empty record set. -/
theorem run_error_handling :
    (∀ e bs, runMain (Except.error e) bs = RunOutcome.fatalError ("网段错误: " ++ e)) ∧
    (∀ np bs, ∃ rs, runMain (Except.ok np) bs = RunOutcome.completed rs) ∧
    (∀ np bs, (∀ ip : Nat, (bs ip).portOpen = false) →
      runMain (Except.ok np) bs = RunOutcome.completed []) := by
  refine ⟨fun e bs => rfl, fun np bs => ?_, fun np bs hclosed => ?_⟩
  · obtain ⟨base, p⟩ := np
    exact ⟨_, rfl⟩
  · obtain ⟨base, p⟩ := np
    have hnone : ∀ ip : Nat, scan_target ip (bs ip) = none := by
      intro ip
      simp [scan_target, is_port_open, hclosed ip]
    have hfm : (((netHosts base p).map
        (fun ip => scan_target ip (bs ip))).filterMap id) = [] := by
      rw [List.filterMap_eq_nil_iff]
      intro o ho
      rw [List.mem_map] at ho
      obtain ⟨ip, -, rfl⟩ := ho
      exact hnone ip
    simp [runMain, aggregate, hfm]

/-- Witness for C7: a parse error is fatal with its message; a run over
`192.168.1.0/24` against all-closed hosts completes with an empty set. -/
theorem run_error_handling_witness :
    runMain (Except.error "invalid") (fun _ => silentHost) =
      RunOutcome.fatalError ("网段错误: " ++ "invalid") ∧
    runMain (Except.ok (ipv4 192 168 1 0, 24)) (fun _ => silentHost) =
      RunOutcome.completed [] :=
  ⟨run_error_handling.1 "invalid" (fun _ => silentHost),
    run_error_handling.2.2 (ipv4 192 168 1 0, 24) (fun _ => silentHost)
      (fun _ => rfl)⟩

/-- C8: for every target count `N` and concurrency limit `K` with
`N ≥ K ≥ 1`, every state the scheduler can reach has at most `K` host
orchestrations simultaneously active. -/
theorem sched_concurrency_bound (N K : Nat) (bs : Nat → HostBehavior)
    (targets : List Nat) (_hN : targets.length = N) (_hK1 : 1 ≤ K) (_hKN : K ≤ N)
    (s : SchedState) (hreach : SchedReach K bs targets s) :
    s.active.length ≤ K := by
  induction hreach with
  | init => exact Nat.zero_le K
  | step hr hstep ih =>
    cases hstep with
    | start t rest a d h => simpa using h
    | finish t p a₁ a₂ d =>
      simp only [List.length_append, List.length_cons] at ih ⊢
      omega

/-- Witness for C8: a two-host run with concurrency limit 1, observed just
after the first host was started. -/
theorem sched_concurrency_bound_witness :
    ([7, 8] : List Nat).length = 2 ∧ 1 ≤ 1 ∧ 1 ≤ 2 ∧
    SchedReach 1 (fun _ => silentHost) [7, 8] ⟨[8], [7], []⟩ ∧
    (SchedState.mk [8] [7] []).active.length ≤ 1 := by
  have hreach : SchedReach 1 (fun _ => silentHost) [7, 8] ⟨[8], [7], []⟩ :=
    SchedReach.step SchedReach.init (SchedStep.start 7 [8] [] [] (by decide))
  exact ⟨rfl, le_refl 1, by omega, hreach,
    sched_concurrency_bound 2 1 (fun _ => silentHost) [7, 8] rfl (le_refl 1)
      (by omega) _ hreach⟩

/-- Witness for C5, instantiated at the first host address `.1`. -/
theorem slash24_enumeration_witness :
    ipv4 192 168 1 1 ∈ netHosts (ipv4 192 168 1 0) 24 ∧
    ipv4 192 168 1 0 < ipv4 192 168 1 1 ∧
    ipv4 192 168 1 1 < ipv4 192 168 1 255 :=
  ⟨by decide, slash24_enumeration.2.2.2.2.2 (ipv4 192 168 1 1) (by decide)⟩
